import Mathlib

/-!
Shallow embedding of the task-management backend's query/authorization/audit
core (Express + Mongoose controllers) and proofs of its specified properties.

Sources embedded:
* `src/server/src/controllers/tasks.ts` — getTasks, createTask, updateTask,
  deleteTask, bulkUpdateTasks, getOverdueTasks;
* `src/server/src/controllers/users.ts` — deleteUser;
* Task schema (pre-save tag normalization, `isOverdue` virtual, validators);
* User schema (`select:false` password, toJSON transform) and auth controller.

Conventions: Mongo ObjectIds are strings; dates are integer timestamps;
each mutating operation has type `State → args → State × Except Err β`,
returning the post-state first so that "fails before any write" is a
provable statement about the returned state.
-/

namespace TaskApp

/-- `enum UserRole { ADMIN = "admin", MEMBER = "member" }` -/
inductive UserRole where
  | admin
  | member
deriving DecidableEq, Repr

/-- `enum TaskStatus { TODO = "todo", IN_PROGRESS = "in-progress", DONE = "done" }` -/
inductive TaskStatus where
  | todo
  | inProgress
  | done
deriving DecidableEq, Repr

/-- The string value of a `TaskStatus`, as stored in the document database. -/
def statusStr : TaskStatus → String
  | .todo => "todo"
  | .inProgress => "in-progress"
  | .done => "done"

/-- `enum TaskPriority { LOW, MEDIUM, HIGH, URGENT }` -/
inductive TaskPriority where
  | low
  | medium
  | high
  | urgent
deriving DecidableEq, Repr

/-- The string value of a `TaskPriority`, as stored in the document database. -/
def priorityStr : TaskPriority → String
  | .low => "low"
  | .medium => "medium"
  | .high => "high"
  | .urgent => "urgent"

/-- `enum ActivityAction { CREATE, UPDATE, DELETE }` -/
inductive ActivityAction where
  | create
  | update
  | delete
deriving DecidableEq, Repr

/-- A stored user document (User model). -/
structure User where
  id : String
  email : String
  password : String
  firstName : String
  lastName : String
  role : UserRole
deriving DecidableEq, Repr

/-- A stored task document (Task model). `dueDate` is an optional timestamp;
`assignee` and `createdBy` are user ids. -/
structure Task where
  id : String
  title : String
  description : Option String
  status : TaskStatus
  priority : TaskPriority
  dueDate : Option Int
  tags : List String
  assignee : String
  createdBy : String
  createdAt : Int
  updatedAt : Int
deriving DecidableEq, Repr

/-- A JSON-comparable value of one of the six diffed task fields. The
controller compares fields with `JSON.stringify`; on these value shapes
stringify-equality coincides with structural equality. -/
inductive FieldVal where
  | str (s : String)
  | date (d : Int)
  | strs (ts : List String)
deriving DecidableEq, Repr

/-- One `{from, to}` record inside an update log entry's `changes` object.
`none` plays the role of JavaScript `undefined` (field absent). -/
structure FieldDiff where
  fromVal : Option FieldVal
  toVal : Option FieldVal
deriving DecidableEq, Repr

/-- The body of a PATCH /tasks/:id request (all fields optional). -/
structure UpdatePayload where
  title : Option String := none
  description : Option String := none
  status : Option TaskStatus := none
  priority : Option TaskPriority := none
  dueDate : Option Int := none
  tags : Option (List String) := none
  assignee : Option String := none
deriving DecidableEq, Repr

/-- The shapes the controllers actually store in the `changes` Mixed field:
a field→{from,to} map on update, `{bulk: true, updates}` on bulk update,
`{title, assignee}` on create, `{title}` on delete. -/
inductive LogChanges where
  | fields (cs : List (String × FieldDiff))
  | bulk (u : UpdatePayload)
  | created (title : String) (assigneeEmail : String)
  | deleted (title : String)
deriving DecidableEq, Repr

/-- A stored ActivityLog document. -/
structure ActivityLogEntry where
  taskId : String
  userId : String
  action : ActivityAction
  changes : LogChanges
deriving DecidableEq, Repr

/-- The persistent store: user collection, task collection, activity log. -/
structure State where
  users : List User
  tasks : List Task
  log : List ActivityLogEntry
deriving DecidableEq, Repr

/-- An `AppError` as thrown by the controllers: message plus HTTP status. -/
structure Err where
  message : String
  status : Nat
deriving DecidableEq, Repr

/-- JavaScript `toLowerCase()` on the ASCII strings the model handles,
computed characterwise (kernel-evaluable, unlike `String.toLower`). -/
def strToLower (s : String) : String :=
  String.mk (s.data.map Char.toLower)

/-- JavaScript `trim()` / the mongoose `trim: true` setter, computed
characterwise. -/
def strTrim (s : String) : String :=
  String.mk
    (((s.data.dropWhile Char.isWhitespace).reverse.dropWhile
        Char.isWhitespace).reverse)

/-- `User.findById` -/
def findUser (s : State) (id : String) : Option User :=
  s.users.find? (fun u => u.id == id)

/-- `Task.findById` -/
def findTask (s : State) (id : String) : Option Task :=
  s.tasks.find? (fun t => t.id == id)

/-- `mongoose.Types.ObjectId.isValid` on the 24-character hex shape the
API's identifiers use. -/
def isValidObjectId (id : String) : Bool :=
  id.length == 24 && id.toList.all (fun c => c.isDigit || ("abcdefABCDEF".toList.contains c))

/-- The HTTP status of a failed result, `none` on success. -/
def errStatus {α : Type} : Except Err α → Option Nat
  | .error e => some e.status
  | .ok _ => none

/-! ## Read path: GET /tasks (getTasks) and GET /tasks/overdue -/

/-- The sortable fields the API accepts (`sortBy`), default `createdAt`. -/
inductive SortField where
  | title
  | status
  | priority
  | dueDate
  | createdAt
  | updatedAt
deriving DecidableEq, Repr

/-- `sortOrder`: ascending or descending, default descending. -/
inductive SortOrder where
  | asc
  | desc
deriving DecidableEq, Repr

/-- The parsed query string of GET /tasks. `none` / `[]` mean the parameter
was absent. -/
structure TaskQuery where
  search : Option String := none
  status : Option TaskStatus := none
  priority : Option TaskPriority := none
  assignee : Option String := none
  tags : List String := []
  dueDateFrom : Option Int := none
  dueDateTo : Option Int := none
  page : Option Int := none
  limit : Option Int := none
  sortBy : SortField := .createdAt
  sortOrder : SortOrder := .desc
deriving DecidableEq, Repr

/-- The Mongo `filter` object getTasks builds (tasks.ts lines 40–71). -/
structure TaskFilter where
  assignee : Option String
  search : Option String
  status : Option TaskStatus
  priority : Option TaskPriority
  tags : List String
  dueDateFrom : Option Int
  dueDateTo : Option Int
deriving DecidableEq, Repr

/-- Filter construction of getTasks: a member's view is forced to
`assignee = caller.id`; an admin's `assignee` query parameter is used when
present and truthy (JavaScript `if (assignee)`); the remaining filters are
passed through under the same truthiness guards. -/
def buildTaskFilter (caller : User) (q : TaskQuery) : TaskFilter where
  assignee :=
    if caller.role == UserRole.member then some caller.id
    else match q.assignee with
      | some a => if a ≠ "" then some a else none
      | none => none
  search :=
    match q.search with
    | some s0 => if s0 ≠ "" then some s0 else none
    | none => none
  status := q.status
  priority := q.priority
  tags := q.tags
  dueDateFrom := q.dueDateFrom
  dueDateTo := q.dueDateTo

/-- Case-insensitive substring test, modelling `$regex` with option `i`
(the search strings the API passes contain no regex metacharacters in the
spec's reading: plain substring match). -/
def strContainsCI (hay pat : String) : Bool :=
  let h := hay.data.map Char.toLower
  let p := pat.data.map Char.toLower
  (List.range (h.length + 1)).any (fun i => p.isPrefixOf (h.drop i))

/-- Whether one task satisfies the Mongo filter object: `$or` of regexes
over title/description, exact matches, `$in` for tags, `$gte`/`$lte` for
the due-date range. A missing `dueDate`/`description` matches no range or
regex condition, as in MongoDB. -/
def matchesFilter (f : TaskFilter) (t : Task) : Bool :=
  (match f.assignee with
    | some a => t.assignee == a
    | none => true) &&
  (match f.search with
    | some s0 =>
        strContainsCI t.title s0 ||
          (match t.description with
            | some d => strContainsCI d s0
            | none => false)
    | none => true) &&
  (match f.status with
    | some st => t.status == st
    | none => true) &&
  (match f.priority with
    | some p => t.priority == p
    | none => true) &&
  (if f.tags.isEmpty then true else t.tags.any (fun tg => f.tags.contains tg)) &&
  (match f.dueDateFrom with
    | some lo => match t.dueDate with
      | some d => lo ≤ d
      | none => false
    | none => true) &&
  (match f.dueDateTo with
    | some hi => match t.dueDate with
      | some d => d ≤ hi
      | none => false
    | none => true)

/-- Insertion into a sorted list under a boolean comparison (helper for the
executable sort). -/
def insertLe {α : Type} (le : α → α → Bool) (a : α) : List α → List α
  | [] => [a]
  | b :: bs => if le a b then a :: b :: bs else b :: insertLe le a bs

/-- Executable insertion sort modelling the store's ORDER BY: the claims
about sorted output only concern which elements appear, so any
permutation-preserving sort is a faithful model of Mongo's (unstable)
sort stage. -/
def sortByLe {α : Type} (le : α → α → Bool) : List α → List α
  | [] => []
  | a :: as => insertLe le a (sortByLe le as)

/-- BSON ordering on an optional timestamp: a missing date sorts before
every present date. -/
def optIntLe (a b : Option Int) : Bool :=
  match a, b with
  | none, _ => true
  | some _, none => false
  | some x, some y => x ≤ y

/-- Ascending comparison of two tasks on one sortable field. -/
def fieldLe (f : SortField) (a b : Task) : Bool :=
  match f with
  | .title => a.title ≤ b.title
  | .status => statusStr a.status ≤ statusStr b.status
  | .priority => priorityStr a.priority ≤ priorityStr b.priority
  | .dueDate => optIntLe a.dueDate b.dueDate
  | .createdAt => a.createdAt ≤ b.createdAt
  | .updatedAt => a.updatedAt ≤ b.updatedAt

/-- `sort[sortBy] = sortOrder === "asc" ? 1 : -1` applied to a task list. -/
def sortTasks (f : SortField) (o : SortOrder) (ts : List Task) : List Task :=
  match o with
  | .asc => sortByLe (fieldLe f) ts
  | .desc => sortByLe (fun a b => fieldLe f b a) ts

/-- `Math.ceil(totalTasks / limitNumber)` on naturals. -/
def ceilDiv (a b : Nat) : Nat := (a + b - 1) / b

/-- The `pagination` object of a paginated response. -/
structure Pagination where
  currentPage : Nat
  totalPages : Nat
  totalItems : Nat
  itemsPerPage : Nat
  hasNextPage : Bool
  hasPrevPage : Bool
deriving DecidableEq, Repr

/-- GET /tasks: build the effective filter, clamp page and limit
(`Math.max(1, page)`, `Math.min(100, Math.max(1, limit))`), filter, sort,
paginate, and compute the pagination metadata (tasks.ts lines 18–108). -/
def getTasks (s : State) (caller : User) (q : TaskQuery) :
    List Task × Pagination :=
  let f := buildTaskFilter caller q
  let pageNumber := (max 1 (q.page.getD 1)).toNat
  let limitNumber := (min 100 (max 1 (q.limit.getD 10))).toNat
  let skip := (pageNumber - 1) * limitNumber
  let matching := s.tasks.filter (matchesFilter f)
  let sorted := sortTasks q.sortBy q.sortOrder matching
  let pageTasks := (sorted.drop skip).take limitNumber
  let totalTasks := matching.length
  let totalPages := ceilDiv totalTasks limitNumber
  (pageTasks,
    { currentPage := pageNumber
      totalPages := totalPages
      totalItems := totalTasks
      itemsPerPage := limitNumber
      hasNextPage := decide (pageNumber < totalPages)
      hasPrevPage := decide (1 < pageNumber) })

/-- The `isOverdue` virtual of the Task schema:
`this.dueDate && this.dueDate < new Date() && this.status !== DONE`. -/
def isOverdue (now : Int) (t : Task) : Bool :=
  match t.dueDate with
  | none => false
  | some d => decide (d < now) && t.status != TaskStatus.done

/-- The query filter of GET /tasks/overdue:
`{ dueDate: { $lt: now }, status: { $ne: "done" } }` — a document without
a `dueDate` does not match `$lt`. -/
def matchesOverdueFilter (now : Int) (t : Task) : Bool :=
  (match t.dueDate with
    | some d => decide (d < now)
    | none => false) &&
  t.status != TaskStatus.done

/-- GET /tasks/overdue: the overdue filter, scoped to the caller's own
tasks for members, sorted by due date ascending (tasks.ts lines 371–399). -/
def getOverdueTasks (s : State) (caller : User) (now : Int) : List Task :=
  let visible : Task → Bool :=
    if caller.role == UserRole.member then
      fun t => matchesOverdueFilter now t && t.assignee == caller.id
    else
      matchesOverdueFilter now
  sortByLe (fun a b => optIntLe a.dueDate b.dueDate) (s.tasks.filter visible)

/-! ## Audit diff machinery (updateTask, tasks.ts lines 224–263) -/

/-- The six fields the update diff loop walks, in source order. -/
inductive TaskField where
  | title
  | description
  | status
  | priority
  | dueDate
  | tags
deriving DecidableEq, Repr

/-- The key under which a field appears in the `changes` object. -/
def fieldName : TaskField → String
  | .title => "title"
  | .description => "description"
  | .status => "status"
  | .priority => "priority"
  | .dueDate => "dueDate"
  | .tags => "tags"

/-- The diff loop's field list `["title", ..., "tags"]`. -/
def taskFields : List TaskField :=
  [.title, .description, .status, .priority, .dueDate, .tags]

/-- `originalTask[field]` as a JSON value (`none` = undefined). -/
def Task.fieldVal (t : Task) : TaskField → Option FieldVal
  | .title => some (.str t.title)
  | .description => t.description.map .str
  | .status => some (.str (statusStr t.status))
  | .priority => some (.str (priorityStr t.priority))
  | .dueDate => t.dueDate.map .date
  | .tags => some (.strs t.tags)

/-- `updates[field]` as a JSON value (`none` = undefined). -/
def UpdatePayload.fieldVal (u : UpdatePayload) : TaskField → Option FieldVal
  | .title => u.title.map .str
  | .description => u.description.map .str
  | .status => u.status.map (fun st => .str (statusStr st))
  | .priority => u.priority.map (fun p => .str (priorityStr p))
  | .dueDate => u.dueDate.map .date
  | .tags => u.tags.map .strs

/-- The diff loop: a field is recorded iff the payload provides it
(`newValue !== undefined`) and its stringified value differs from the
original's (`JSON.stringify(newValue) !== JSON.stringify(originalValue)`). -/
def diffChanges (t : Task) (u : UpdatePayload) : List (String × FieldDiff) :=
  taskFields.filterMap (fun f =>
    match u.fieldVal f with
    | none => none
    | some v =>
        if t.fieldVal f == some v then none
        else some (fieldName f, { fromVal := t.fieldVal f, toVal := some v }))

/-- Assignee-change detection:
`updates.assignee && updates.assignee !== task.assignee.toString()`. -/
def assigneeChange (t : Task) (u : UpdatePayload) : List (String × FieldDiff) :=
  match u.assignee with
  | some a =>
      if a != "" && a != t.assignee then
        [("assignee", { fromVal := some (.str t.assignee), toVal := some (.str a) })]
      else []
  | none => []

/-- The complete `changes` object of one update: the assignee entry (added
first in the source) followed by the six-field diff. -/
def updateChanges (t : Task) (u : UpdatePayload) : List (String × FieldDiff) :=
  assigneeChange t u ++ diffChanges t u

/-! ## Write path -/

/-- Tag normalization, the Task schema's pre-save hook: lower-case and trim
every tag, then keep only non-empty first occurrences
(`tag && arr.indexOf(tag) === index`). -/
def normalizeTags (tags : List String) : List String :=
  let mapped := tags.map (fun t => strTrim (strToLower t))
  (mapped.zip (List.range mapped.length)).filterMap (fun p =>
    if p.1 != "" && mapped.indexOf p.1 == p.2 then some p.1 else none)

/-- Schema validation of the fields named by an update (mongoose
`runValidators: true` on `findByIdAndUpdate`/`updateMany`): title
required/≤200 after its trim setter, description ≤2000, due date strictly
in the future, at most 10 tags, assignee castable to an ObjectId. The
pre-save hook does not run on these query-level updates, so no tag
normalization happens here. -/
def validateUpdate (u : UpdatePayload) (now : Int) : Option Err :=
  if (match u.title with
      | some s0 => strTrim s0 == "" || decide ((strTrim s0).length > 200)
      | none => false) then
    some { message := "Task validation failed: title", status := 400 }
  else if (match u.description with
      | some s0 => decide ((strTrim s0).length > 2000)
      | none => false) then
    some { message := "Task validation failed: description", status := 400 }
  else if (match u.dueDate with
      | some d => decide (d ≤ now)
      | none => false) then
    some { message := "Due date must be in the future", status := 400 }
  else if (match u.tags with
      | some ts => decide (ts.length > 10)
      | none => false) then
    some { message := "Cannot have more than 10 tags", status := 400 }
  else if (match u.assignee with
      | some a => !isValidObjectId a
      | none => false) then
    some { message := "Cast to ObjectId failed", status := 400 }
  else
    none

/-- The document-level effect of `findByIdAndUpdate(id, updates)`: each
provided field is set (string setters trim), `updatedAt` is refreshed by
the timestamps option, and — crucially — tags are stored exactly as sent,
the pre-save normalization hook not being triggered. -/
def applyUpdates (now : Int) (t : Task) (u : UpdatePayload) : Task :=
  { t with
    title := match u.title with
      | some s0 => strTrim s0
      | none => t.title
    description := match u.description with
      | some s0 => some (strTrim s0)
      | none => t.description
    status := u.status.getD t.status
    priority := u.priority.getD t.priority
    dueDate := match u.dueDate with
      | some d => some d
      | none => t.dueDate
    tags := u.tags.getD t.tags
    assignee := u.assignee.getD t.assignee
    updatedAt := now }

/-- The body of POST /tasks. -/
structure CreateTaskBody where
  title : String
  description : Option String := none
  status : Option TaskStatus := none
  priority : Option TaskPriority := none
  dueDate : Option Int := none
  tags : Option (List String) := none
  assignee : String
deriving DecidableEq, Repr

/-- POST /tasks (tasks.ts lines 155–198): the assignee must exist; the
document is validated (title required/≤200, description ≤2000, future due
date, ≤10 raw tags), defaults applied (status todo, priority medium, tags
[]), the pre-save hook normalizes the tags, and one `create` log entry is
written with `{title, assignee: assigneeUser.email}`. `newId` stands for
the ObjectId the store mints. -/
def createTask (s : State) (caller : User) (b : CreateTaskBody)
    (newId : String) (now : Int) : State × Except Err Task :=
  match findUser s b.assignee with
  | none => (s, .error { message := "Assignee not found", status := 404 })
  | some assigneeUser =>
    let title := strTrim b.title
    let descr := b.description.map (fun d => strTrim d)
    let rawTags := b.tags.getD []
    if title == "" || decide (title.length > 200) then
      (s, .error { message := "Task validation failed: title", status := 400 })
    else if (match descr with
        | some d => decide (d.length > 2000)
        | none => false) then
      (s, .error { message := "Task validation failed: description", status := 400 })
    else if (match b.dueDate with
        | some d => decide (d ≤ now)
        | none => false) then
      (s, .error { message := "Due date must be in the future", status := 400 })
    else if decide (rawTags.length > 10) then
      (s, .error { message := "Cannot have more than 10 tags", status := 400 })
    else
      let task : Task :=
        { id := newId
          title := title
          description := descr
          status := b.status.getD .todo
          priority := b.priority.getD .medium
          dueDate := b.dueDate
          tags := normalizeTags rawTags
          assignee := b.assignee
          createdBy := caller.id
          createdAt := now
          updatedAt := now }
      let entry : ActivityLogEntry :=
        { taskId := newId
          userId := caller.id
          action := .create
          changes := .created b.title assigneeUser.email }
      ({ s with tasks := s.tasks ++ [task], log := s.log ++ [entry] }, .ok task)

/-- The tail of updateTask after the assignee-existence step: validate,
apply the update, and append one `update` log entry iff `changes` is
non-empty. -/
def finishUpdate (s : State) (caller : User) (id : String) (task : Task)
    (u : UpdatePayload) (now : Int) (changes : List (String × FieldDiff)) :
    State × Except Err Task :=
  match validateUpdate u now with
  | some e => (s, .error e)
  | none =>
    let updated := applyUpdates now task u
    let tasks := s.tasks.map (fun t => if t.id == id then updated else t)
    let log :=
      if changes.isEmpty then s.log
      else s.log ++
        [{ taskId := id, userId := caller.id, action := .update,
           changes := .fields changes }]
    ({ s with tasks := tasks, log := log }, .ok updated)

/-- PATCH /tasks/:id (tasks.ts lines 200–273): 404 when absent; 403 when a
member touches a task they are not assigned to; 404 when reassigning to a
nonexistent user; then diff, update, and log iff the diff is non-empty. -/
def updateTask (s : State) (caller : User) (id : String) (u : UpdatePayload)
    (now : Int) : State × Except Err Task :=
  match findTask s id with
  | none => (s, .error { message := "Task not found", status := 404 })
  | some task =>
    if caller.role == UserRole.member && task.assignee != caller.id then
      (s, .error
        { message := "Access denied. You can only update your assigned tasks.",
          status := 403 })
    else
      match u.assignee with
      | some a =>
          if a != "" && a != task.assignee then
            match findUser s a with
            | none => (s, .error { message := "Assignee not found", status := 404 })
            | some _ => finishUpdate s caller id task u now (updateChanges task u)
          else finishUpdate s caller id task u now (updateChanges task u)
      | none => finishUpdate s caller id task u now (updateChanges task u)

/-- DELETE /tasks/:id (tasks.ts lines 276–315): 404 when absent; 403 when a
member is not the assignee; otherwise delete and append one `delete` log
entry with `{title}`. -/
def deleteTask (s : State) (caller : User) (id : String) :
    State × Except Err Unit :=
  match findTask s id with
  | none => (s, .error { message := "Task not found", status := 404 })
  | some task =>
    if caller.role == UserRole.member && task.assignee != caller.id then
      (s, .error
        { message := "Access denied. You can only delete your assigned tasks.",
          status := 403 })
    else
      ({ s with
          tasks := s.tasks.filter (fun t => t.id != id)
          log := s.log ++
            [{ taskId := id, userId := caller.id, action := .delete,
               changes := .deleted task.title }] },
       .ok ())

/-- PATCH /tasks/bulk (tasks.ts lines 318–369): every requested id must be
a valid ObjectId, a truthy new assignee must exist, then `updateMany`
updates all matching tasks in one batch and one `update` log entry with
`{bulk: true, updates}` is written **per requested id** (the source maps
over `validTaskIds`, not over the matched tasks). Returns
`(matchedCount, modifiedCount)`. -/
def bulkUpdateTasks (s : State) (caller : User) (taskIds : List String)
    (u : UpdatePayload) (now : Int) : State × Except Err (Nat × Nat) :=
  let validIds := taskIds.filter isValidObjectId
  if validIds.length != taskIds.length then
    (s, .error { message := "One or more task IDs are invalid", status := 400 })
  else if (match u.assignee with
      | some a => a != "" && (findUser s a).isNone
      | none => false) then
    (s, .error { message := "Assignee not found", status := 404 })
  else
    match validateUpdate u now with
    | some e => (s, .error e)
    | none =>
      let matched := s.tasks.filter (fun t => validIds.contains t.id)
      let tasks := s.tasks.map (fun t =>
        if validIds.contains t.id then applyUpdates now t u else t)
      let entries := validIds.map (fun tid =>
        { taskId := tid, userId := caller.id, action := ActivityAction.update,
          changes := LogChanges.bulk u : ActivityLogEntry })
      let modified := matched.countP (fun t => applyUpdates now t u != t)
      ({ s with tasks := tasks, log := s.log ++ entries },
       .ok (matched.length, modified))

/-- DELETE /users/:id (users.ts lines 160–196): invalid id → 400; deleting
yourself → 400; absent user → 404; a user with at least one assigned task →
400 domain error; otherwise the user is removed. -/
def deleteUser (s : State) (caller : User) (id : String) :
    State × Except Err Unit :=
  if !isValidObjectId id then
    (s, .error { message := "Invalid user ID format", status := 400 })
  else if caller.id == id then
    (s, .error { message := "You cannot delete your own account", status := 400 })
  else
    match findUser s id with
    | none => (s, .error { message := "User not found", status := 404 })
    | some _ =>
      let assignedTasks := (s.tasks.filter (fun t => t.assignee == id)).length
      if decide (assignedTasks > 0) then
        (s, .error
          { message := "Cannot delete user. They have assigned task(s). Please reassign these tasks first.",
            status := 400 })
      else
        ({ s with users := s.users.filter (fun u => u.id != id) }, .ok ())

/-! ## Response serialization (User schema toJSON transform, select:false,
populate projections) — used by the password-exposure property. -/

/-- A JSON value, as produced by `res.json`. -/
inductive JVal where
  | str (s : String)
  | num (n : Int)
  | bool (b : Bool)
  | null
  | arr (elems : List JVal)
  | obj (fields : List (String × JVal))

mutual

/-- Whether the key `k` occurs anywhere in a JSON value. -/
def JVal.hasKey (k : String) : JVal → Bool
  | .obj fs => hasKeyFields k fs
  | .arr es => hasKeyElems k es
  | _ => false

/-- Whether the key `k` occurs in an object's field list or below it. -/
def hasKeyFields (k : String) : List (String × JVal) → Bool
  | [] => false
  | (k', v) :: rest => k' == k || JVal.hasKey k v || hasKeyFields k rest

/-- Whether the key `k` occurs inside any element of an array. -/
def hasKeyElems (k : String) : List JVal → Bool
  | [] => false
  | v :: rest => JVal.hasKey k v || hasKeyElems k rest

end

/-- The raw user document as an object, password included (what the store
holds / what `select("+password")` loads). -/
def userObjRaw (u : User) : List (String × JVal) :=
  [("_id", .str u.id),
   ("email", .str u.email),
   ("password", .str u.password),
   ("firstName", .str u.firstName),
   ("lastName", .str u.lastName),
   ("role", .str (match u.role with
     | .admin => "admin"
     | .member => "member"))]

/-- `delete ret.password` on an object under serialization. -/
def deleteKey (k : String) (obj : List (String × JVal)) : List (String × JVal) :=
  obj.filter (fun p => p.1 != k)

/-- The User schema's toJSON transform: serialize all fields, then
`delete ret.password`. Every user document that reaches `res.json` is
serialized through this, including one loaded with `select("+password")`
(login) or one whose password the login handler already cleared. -/
def userToJSON (u : User) : JVal :=
  .obj (deleteKey "password" (userObjRaw u))

/-- A populated `assignee`/`createdBy` reference: `populate` with the
projection `"firstName lastName email"` loads only those paths plus `_id`. -/
def populatedUserObj (s : State) (id : String) : JVal :=
  match findUser s id with
  | none => .null
  | some u =>
      .obj [("_id", .str u.id),
            ("firstName", .str u.firstName),
            ("lastName", .str u.lastName),
            ("email", .str u.email)]

/-- A task document as serialized in list/detail responses, with its two
user references populated. -/
def taskToJSON (s : State) (t : Task) : JVal :=
  .obj [("_id", .str t.id),
        ("title", .str t.title),
        ("description", match t.description with
          | some d => .str d
          | none => .null),
        ("status", .str (statusStr t.status)),
        ("priority", .str (priorityStr t.priority)),
        ("dueDate", match t.dueDate with
          | some d => .num d
          | none => .null),
        ("tags", .arr (t.tags.map .str)),
        ("assignee", populatedUserObj s t.assignee),
        ("createdBy", populatedUserObj s t.createdBy)]

/-- The `data` object of register/login responses:
`{ user, token }` via `sendTokenResponse` (login clears `user.password`
first; the toJSON transform deletes it in any case). -/
def authResponseData (u : User) (token : String) : JVal :=
  .obj [("user", userToJSON u), ("token", .str token)]

/-- The `data` object of GET /auth/profile and GET /auth/verify. -/
def profileResponseData (u : User) : JVal :=
  .obj [("user", userToJSON u)]

/-- The `data` object of GET /users: the user page is loaded with
`select("-password")` and serialized through toJSON. -/
def usersResponseData (us : List User) : JVal :=
  .obj [("users", .arr (us.map userToJSON))]

/-- The `data` object of GET /users/:id (taskStats omitted: numeric only). -/
def userByIdResponseData (u : User) : JVal :=
  .obj [("user", userToJSON u)]

/-- The `data` object of GET /tasks: the task page with populated
assignee/createdBy. -/
def tasksResponseData (s : State) (ts : List Task) : JVal :=
  .obj [("tasks", .arr (ts.map (taskToJSON s)))]

deriving instance DecidableEq for Except

/-! ## Concrete fixtures used by the witness instances -/

/-- A concrete admin user. -/
def wAdmin : User :=
  { id := "aaaaaaaaaaaaaaaaaaaaaaaa", email := "admin@example.com"
    password := "secret-hash", firstName := "Ada", lastName := "Admin"
    role := .admin }

/-- A concrete member user. -/
def wMember : User :=
  { id := "bbbbbbbbbbbbbbbbbbbbbbbb", email := "member@example.com"
    password := "secret-hash", firstName := "Mia", lastName := "Member"
    role := .member }

/-- A second concrete member user, with no assigned tasks. -/
def wIdle : User :=
  { id := "dddddddddddddddddddddddd", email := "idle@example.com"
    password := "secret-hash", firstName := "Ira", lastName := "Idle"
    role := .member }

/-- A concrete task assigned to `wMember`, in status todo. -/
def wTask : Task :=
  { id := "cccccccccccccccccccccccc", title := "Write the report"
    description := none, status := .todo, priority := .medium
    dueDate := none, tags := [], assignee := wMember.id
    createdBy := wAdmin.id, createdAt := 0, updatedAt := 0 }

/-- A concrete store holding the three users and one task. -/
def wState : State :=
  { users := [wAdmin, wMember, wIdle], tasks := [wTask], log := [] }

/-- A concrete task with a due date in the past (relative to `now = 5`). -/
def wTaskDue : Task :=
  { id := "ffffffffffffffffffffffff", title := "Ship the build"
    description := none, status := .inProgress, priority := .high
    dueDate := some 3, tags := [], assignee := wMember.id
    createdBy := wAdmin.id, createdAt := 0, updatedAt := 0 }

/-- A concrete store in which `wTaskDue` is overdue and `wTask` is not. -/
def wStateDue : State :=
  { users := [wAdmin, wMember], tasks := [wTask, wTaskDue], log := [] }

/-! ## Helper lemmas -/

/-- Membership through `insertLe`. -/
theorem mem_insertLe {α : Type} (le : α → α → Bool) (x a : α) (l : List α) :
    x ∈ insertLe le a l ↔ x = a ∨ x ∈ l := by
  induction l with
  | nil => simp [insertLe]
  | cons b bs ih =>
      by_cases h : le a b = true
      · simp [insertLe, h]
      · simp only [insertLe, h]
        simp only [Bool.false_eq_true, if_false, List.mem_cons, ih]
        tauto

/-- Membership through the executable sort. -/
theorem mem_sortByLe {α : Type} (le : α → α → Bool) (x : α) (l : List α) :
    x ∈ sortByLe le l ↔ x ∈ l := by
  induction l with
  | nil => simp [sortByLe]
  | cons a as ih => simp [sortByLe, mem_insertLe, ih]

/-- Membership through `sortTasks`. -/
theorem mem_sortTasks (f : SortField) (o : SortOrder) (t : Task)
    (ts : List Task) : t ∈ sortTasks f o ts ↔ t ∈ ts := by
  cases o <;> simp [sortTasks, mem_sortByLe]

/-- Every task on a returned page of GET /tasks satisfies the effective
filter getTasks built for the caller. -/
theorem mem_getTasks_matches (s : State) (caller : User) (q : TaskQuery)
    (t : Task) (h : t ∈ (getTasks s caller q).1) :
    t ∈ s.tasks ∧ matchesFilter (buildTaskFilter caller q) t = true := by
  unfold getTasks at h
  simp only at h
  have h1 := List.mem_of_mem_take h
  have h2 := List.mem_of_mem_drop h1
  rw [mem_sortTasks] at h2
  exact (List.mem_filter).mp h2

/-! ## Claim C1 -/

/-- C1: the task-list operation is role-scoped. A member's effective filter
forces `assignee = caller.id` whatever assignee filter was requested, so
every task on the returned page is assigned to the caller; an admin's
requested assignee filter is used as given, and an admin with no filters
at all matches every stored task. -/
theorem getTasks_role_scoping (s : State) (caller : User) (q : TaskQuery) :
    (caller.role = UserRole.member →
      ∀ t ∈ (getTasks s caller q).1, t.assignee = caller.id) ∧
    (caller.role = UserRole.admin → ∀ a, q.assignee = some a → a ≠ "" →
      (buildTaskFilter caller q).assignee = some a ∧
      ∀ t ∈ (getTasks s caller q).1, t.assignee = a) ∧
    (caller.role = UserRole.admin → q.assignee = none → q.search = none →
      q.status = none → q.priority = none → q.tags = [] →
      q.dueDateFrom = none → q.dueDateTo = none →
      s.tasks.filter (matchesFilter (buildTaskFilter caller q)) = s.tasks) := by
  refine ⟨?_, ?_, ?_⟩
  · intro hm t ht
    have h := (mem_getTasks_matches s caller q t ht).2
    have hf : (buildTaskFilter caller q).assignee = some caller.id := by
      simp [buildTaskFilter, hm]
    simp only [matchesFilter, hf, Bool.and_eq_true, beq_iff_eq] at h
    exact h.1.1.1.1.1.1
  · intro ha a hq hne
    have hf : (buildTaskFilter caller q).assignee = some a := by
      simp [buildTaskFilter, ha, hq, hne]
    refine ⟨hf, ?_⟩
    intro t ht
    have h := (mem_getTasks_matches s caller q t ht).2
    simp only [matchesFilter, hf, Bool.and_eq_true, beq_iff_eq] at h
    exact h.1.1.1.1.1.1
  · intro ha h1 h2 h3 h4 h5 h6 h7
    apply List.filter_eq_self.mpr
    intro t _
    simp [matchesFilter, buildTaskFilter, ha, h1, h2, h3, h4, h5, h6, h7]

/-- Witness for C1 at a concrete store: the member's page only holds their
task; the admin's requested filter is honored; an unfiltered admin query
matches the whole task collection. -/
theorem getTasks_role_scoping_witness :
    (∀ t ∈ (getTasks wState wMember {}).1, t.assignee = wMember.id) ∧
    (buildTaskFilter wAdmin { assignee := some wMember.id }).assignee =
      some wMember.id ∧
    wState.tasks.filter (matchesFilter (buildTaskFilter wAdmin {})) =
      wState.tasks := by
  refine ⟨(getTasks_role_scoping wState wMember {}).1 rfl, ?_, ?_⟩
  · exact ((getTasks_role_scoping wState wAdmin
      { assignee := some wMember.id }).2.1 rfl wMember.id rfl (by decide)).1
  · exact (getTasks_role_scoping wState wAdmin {}).2.2 rfl rfl rfl rfl rfl
      rfl rfl rfl

/-! ## Claim C2 -/

/-- Every error produced by update-time schema validation carries status
400, never 403. -/
theorem validateUpdate_status (u : UpdatePayload) (now : Int) (e : Err)
    (h : validateUpdate u now = some e) : e.status = 400 := by
  unfold validateUpdate at h
  repeat' split at h
  all_goals simp_all
  all_goals rw [← h]

/-- `finishUpdate` never fails with status 403. -/
theorem finishUpdate_not403 (s : State) (caller : User) (id : String)
    (task : Task) (u : UpdatePayload) (now : Int)
    (cs : List (String × FieldDiff)) :
    errStatus (finishUpdate s caller id task u now cs).2 ≠ some 403 := by
  unfold finishUpdate
  cases hv : validateUpdate u now with
  | none => simp [errStatus]
  | some e =>
      have := validateUpdate_status u now e hv
      simp [errStatus]
      omega

/-- When the ownership guard fires, updateTask returns the 403 error with
the store untouched. -/
theorem updateTask_auth_fail (s : State) (caller : User) (id : String)
    (u : UpdatePayload) (now : Int) (t : Task)
    (hfind : findTask s id = some t)
    (hg : (caller.role == UserRole.member && t.assignee != caller.id) = true) :
    updateTask s caller id u now =
      (s, .error
        { message := "Access denied. You can only update your assigned tasks.",
          status := 403 }) := by
  unfold updateTask
  rw [hfind]
  simp [hg]

/-- When the ownership guard does not fire, updateTask never fails with
status 403. -/
theorem updateTask_not403 (s : State) (caller : User) (id : String)
    (u : UpdatePayload) (now : Int) (t : Task)
    (hfind : findTask s id = some t)
    (hg : (caller.role == UserRole.member && t.assignee != caller.id) = false) :
    errStatus (updateTask s caller id u now).2 ≠ some 403 := by
  unfold updateTask
  rw [hfind]
  simp only [hg, Bool.false_eq_true, if_false]
  cases hu : u.assignee with
  | none => exact finishUpdate_not403 s caller id t u now (updateChanges t u)
  | some a =>
      by_cases hga : (a != "" && a != t.assignee) = true
      · simp only [hga, if_true]
        cases hfu : findUser s a with
        | none => simp [errStatus]
        | some _ => exact finishUpdate_not403 s caller id t u now (updateChanges t u)
      · simp only [Bool.not_eq_true] at hga
        simp only [hga, Bool.false_eq_true, if_false]
        exact finishUpdate_not403 s caller id t u now (updateChanges t u)

/-- When the ownership guard fires, deleteTask returns the 403 error with
the store untouched. -/
theorem deleteTask_auth_fail (s : State) (caller : User) (id : String)
    (t : Task) (hfind : findTask s id = some t)
    (hg : (caller.role == UserRole.member && t.assignee != caller.id) = true) :
    deleteTask s caller id =
      (s, .error
        { message := "Access denied. You can only delete your assigned tasks.",
          status := 403 }) := by
  unfold deleteTask
  rw [hfind]
  simp [hg]

/-- When the ownership guard does not fire, deleteTask succeeds. -/
theorem deleteTask_ok (s : State) (caller : User) (id : String) (t : Task)
    (hfind : findTask s id = some t)
    (hg : (caller.role == UserRole.member && t.assignee != caller.id) = false) :
    (deleteTask s caller id).2 = .ok () := by
  unfold deleteTask
  rw [hfind]
  simp [hg]

/-- C2: for an existing task, a member caller's update or delete fails with
the 403 authorization error exactly when the caller is not the task's
assignee, and that failure leaves the whole store (tasks and activity log)
unchanged; an admin caller never hits the 403 and can always delete. -/
theorem mutation_authorization (s : State) (caller : User) (id : String)
    (u : UpdatePayload) (now : Int) (t : Task)
    (hfind : findTask s id = some t) :
    (caller.role = UserRole.member →
      (errStatus (updateTask s caller id u now).2 = some 403 ↔
        t.assignee ≠ caller.id) ∧
      (errStatus (deleteTask s caller id).2 = some 403 ↔
        t.assignee ≠ caller.id) ∧
      (t.assignee ≠ caller.id →
        (updateTask s caller id u now).1 = s ∧
        (deleteTask s caller id).1 = s)) ∧
    (caller.role = UserRole.admin →
      errStatus (updateTask s caller id u now).2 ≠ some 403 ∧
      (deleteTask s caller id).2 = .ok ()) := by
  constructor
  · intro hm
    by_cases hne : t.assignee = caller.id
    · have hg : (caller.role == UserRole.member && t.assignee != caller.id) = false := by
        simp [hne]
      have hu := updateTask_not403 s caller id u now t hfind hg
      have hd := deleteTask_ok s caller id t hfind hg
      refine ⟨?_, ?_, ?_⟩
      · constructor
        · intro h403; exact absurd h403 hu
        · intro hne'; exact absurd hne hne'
      · constructor
        · intro h403
          rw [hd] at h403
          simp [errStatus] at h403
        · intro hne'; exact absurd hne hne'
      · intro hne'; exact absurd hne hne'
    · have hg : (caller.role == UserRole.member && t.assignee != caller.id) = true := by
        simp [hm, hne]
      have hu := updateTask_auth_fail s caller id u now t hfind hg
      have hd := deleteTask_auth_fail s caller id t hfind hg
      refine ⟨?_, ?_, ?_⟩
      · rw [hu]; simp [errStatus, hne]
      · rw [hd]; simp [errStatus, hne]
      · intro _
        rw [hu, hd]
        exact ⟨rfl, rfl⟩
  · intro ha
    have hg : (caller.role == UserRole.member && t.assignee != caller.id) = false := by
      simp [ha]
    exact ⟨updateTask_not403 s caller id u now t hfind hg,
      deleteTask_ok s caller id t hfind hg⟩

/-- Witness for C2: the member `wIdle` is not the assignee of `wTask`, so
their update and delete both fail with 403 and leave the store unchanged;
the admin's update is never rejected with 403 and their delete succeeds. -/
theorem mutation_authorization_witness :
    errStatus (updateTask wState wIdle wTask.id {} 5).2 = some 403 ∧
    (updateTask wState wIdle wTask.id {} 5).1 = wState ∧
    errStatus (deleteTask wState wIdle wTask.id).2 = some 403 ∧
    (deleteTask wState wIdle wTask.id).1 = wState ∧
    errStatus (updateTask wState wAdmin wTask.id {} 5).2 ≠ some 403 ∧
    (deleteTask wState wAdmin wTask.id).2 = .ok () := by
  have hm := mutation_authorization wState wIdle wTask.id {} 5 wTask (by decide)
  have ha := mutation_authorization wState wAdmin wTask.id {} 5 wTask (by decide)
  have hne : wTask.assignee ≠ wIdle.id := by decide
  have hm' := hm.1 rfl
  refine ⟨hm'.1.mpr hne, (hm'.2.2 hne).1, hm'.2.1.mpr hne, (hm'.2.2 hne).2,
    (ha.2 rfl).1, (ha.2 rfl).2⟩

/-! ## Claim C3 -/

/-- When the task exists, the caller is authorized and any requested
reassignment names an existing user, updateTask reduces to its
validate/apply/log tail with the computed diff. -/
theorem updateTask_reaches_finish (s : State) (caller : User) (id : String)
    (u : UpdatePayload) (now : Int) (t : Task)
    (hfind : findTask s id = some t)
    (hauth : (caller.role == UserRole.member && t.assignee != caller.id) = false)
    (hassign : ∀ a, u.assignee = some a → (a != "" && a != t.assignee) = true →
      (findUser s a).isSome = true) :
    updateTask s caller id u now =
      finishUpdate s caller id t u now (updateChanges t u) := by
  unfold updateTask
  rw [hfind]
  simp only [hauth, Bool.false_eq_true, if_false]
  cases hu : u.assignee with
  | none => rfl
  | some a =>
      by_cases hga : (a != "" && a != t.assignee) = true
      · simp only [hga, if_true]
        cases hfu : findUser s a with
        | none =>
            have := hassign a hu hga
            rw [hfu] at this
            simp at this
        | some _ => rfl
      · simp only [Bool.not_eq_true] at hga
        simp only [hga, Bool.false_eq_true, if_false]

/-- C3: for a successful update, the engine computes the field-level diff
over {title, description, status, priority, dueDate, tags} plus assignee
change detection, appends exactly one `update` log entry carrying that diff
when the diff is non-empty, appends nothing when the payload is value-equal
to the current field values, and updating status todo → in-progress yields
exactly the entry `changes.status = {from: "todo", to: "in-progress"}`. -/
theorem updateTask_audit (s : State) (caller : User) (id : String)
    (u : UpdatePayload) (now : Int) (t : Task)
    (hfind : findTask s id = some t)
    (hauth : (caller.role == UserRole.member && t.assignee != caller.id) = false)
    (hassign : ∀ a, u.assignee = some a → (a != "" && a != t.assignee) = true →
      (findUser s a).isSome = true)
    (hvalid : validateUpdate u now = none) :
    (updateTask s caller id u now).2 = .ok (applyUpdates now t u) ∧
    (updateChanges t u = [] →
      (updateTask s caller id u now).1.log = s.log) ∧
    (updateChanges t u ≠ [] →
      (updateTask s caller id u now).1.log = s.log ++
        [{ taskId := id, userId := caller.id, action := .update,
           changes := .fields (updateChanges t u) }]) ∧
    ((∀ f v, u.fieldVal f = some v → t.fieldVal f = some v) →
      (u.assignee = none ∨ u.assignee = some t.assignee) →
      updateChanges t u = []) ∧
    ((∃ f v, u.fieldVal f = some v ∧ t.fieldVal f ≠ some v) →
      updateChanges t u ≠ []) ∧
    (t.status = .todo → u = { status := some .inProgress } →
      updateChanges t u =
        [("status", { fromVal := some (.str "todo"),
                      toVal := some (.str "in-progress") })]) := by
  have hred := updateTask_reaches_finish s caller id u now t hfind hauth hassign
  rw [hred]
  unfold finishUpdate
  rw [hvalid]
  refine ⟨rfl, ?_, ?_, ?_, ?_, ?_⟩
  · intro hc
    simp [hc]
  · intro hc
    simp [List.isEmpty_iff, hc]
  · intro heq hass
    unfold updateChanges
    have h1 : assigneeChange t u = [] := by
      unfold assigneeChange
      rcases hass with h | h
      · rw [h]
      · rw [h]
        simp
    have h2 : diffChanges t u = [] := by
      unfold diffChanges
      apply List.filterMap_eq_nil_iff.mpr
      intro f _
      cases hv : u.fieldVal f with
      | none => rfl
      | some v =>
          have := heq f v hv
          simp [this]
    rw [h1, h2]
    rfl
  · rintro ⟨f, v, hv, hne⟩ hcontra
    unfold updateChanges at hcontra
    have h2 := (List.append_eq_nil.mp hcontra).2
    unfold diffChanges at h2
    have hmem : f ∈ taskFields := by cases f <;> simp [taskFields]
    have := List.filterMap_eq_nil_iff.mp h2 f hmem
    rw [hv] at this
    have hb : (t.fieldVal f == some v) = false := by
      simp [hne]
    simp [hb] at this
  · intro hst hu
    subst hu
    unfold updateChanges assigneeChange diffChanges
    simp [taskFields, UpdatePayload.fieldVal, Task.fieldVal, hst, statusStr,
      fieldName]

/-- Witness for C3: updating `wTask` (status todo) to in-progress writes
exactly one log entry with the status diff; an empty payload writes none. -/
theorem updateTask_audit_witness :
    (updateTask wState wAdmin wTask.id { status := some .inProgress } 5).1.log =
      [{ taskId := wTask.id, userId := wAdmin.id, action := .update,
         changes := .fields
           [("status", { fromVal := some (.str "todo"),
                         toVal := some (.str "in-progress") })] }] ∧
    (updateTask wState wAdmin wTask.id {} 5).1.log = [] := by
  have h1 := updateTask_audit wState wAdmin wTask.id
    { status := some .inProgress } 5 wTask (by decide) (by decide)
    (by intro a h; simp at h) (by decide)
  have h2 := updateTask_audit wState wAdmin wTask.id {} 5 wTask (by decide)
    (by decide) (by intro a h; simp at h) (by decide)
  constructor
  · have hc := h1.2.2.2.2.2 rfl rfl
    have hne : updateChanges wTask { status := some .inProgress } ≠ [] := by
      rw [hc]
      simp
    rw [h1.2.2.1 hne, hc]
    rfl
  · have hc0 : updateChanges wTask ({} : UpdatePayload) = [] := by decide
    rw [h2.2.1 hc0]
    rfl

/-! ## Claim C4 -/

/-- C4: the tag-normalization invariant holds on the create path (the
pre-save hook lower-cases, trims and de-duplicates) but is broken by the
update path: `findByIdAndUpdate` does not trigger the pre-save hook, so an
update storing `["Foo ", "FOO"]` leaves exactly those raw strings in the
store — not lower-cased, not trimmed, not de-duplicated. -/
theorem tags_normalization_divergence :
    (errStatus (createTask wState wAdmin
        { title := "T", assignee := wMember.id,
          tags := some ["Foo ", "FOO", "bar"] }
        "eeeeeeeeeeeeeeeeeeeeeeee" 0).2 = none ∧
      (findTask (createTask wState wAdmin
          { title := "T", assignee := wMember.id,
            tags := some ["Foo ", "FOO", "bar"] }
          "eeeeeeeeeeeeeeeeeeeeeeee" 0).1 "eeeeeeeeeeeeeeeeeeeeeeee").map
          Task.tags = some ["foo", "bar"]) ∧
    (errStatus (updateTask wState wAdmin wTask.id
        { tags := some ["Foo ", "FOO"] } 5).2 = none ∧
      (findTask (updateTask wState wAdmin wTask.id
          { tags := some ["Foo ", "FOO"] } 5).1 wTask.id).map Task.tags =
        some ["Foo ", "FOO"] ∧
      normalizeTags ["Foo ", "FOO"] ≠ ["Foo ", "FOO"]) := by
  refine ⟨⟨by decide, by decide⟩, by decide, by decide, by decide⟩

/-! ## Claim C5 -/

/-- Counterexample to C5 as stated: a bulk update naming one well-formed id
that matches **no** stored task succeeds with `matchedCount = 0`, yet one
ActivityLog entry is still written — the source logs per requested id, not
per affected task. -/
theorem bulk_log_counterexample :
    (bulkUpdateTasks wState wAdmin ["dddddddddddddddddddddddd"]
      { status := some .done } 5).2 = .ok (0, 0) ∧
    (bulkUpdateTasks wState wAdmin ["dddddddddddddddddddddddd"]
      { status := some .done } 5).1.log.length = 1 := by
  constructor
  · decide
  · decide

/-- C5 amended: on a bulk update in which every requested id is well-formed,
any requested new assignee exists and the update validates, exactly one
`{bulk: true, updates}` log entry is appended **per requested task id** —
whether or not that id matches a stored task. -/
theorem bulk_log_per_requested_id (s : State) (caller : User)
    (taskIds : List String) (u : UpdatePayload) (now : Int)
    (h1 : ∀ i ∈ taskIds, isValidObjectId i = true)
    (h2 : ∀ a, u.assignee = some a → a ≠ "" → (findUser s a).isSome = true)
    (h3 : validateUpdate u now = none) :
    errStatus (bulkUpdateTasks s caller taskIds u now).2 = none ∧
    (bulkUpdateTasks s caller taskIds u now).1.log =
      s.log ++ taskIds.map (fun tid =>
        { taskId := tid, userId := caller.id, action := ActivityAction.update,
          changes := LogChanges.bulk u }) := by
  have hfeq : taskIds.filter isValidObjectId = taskIds :=
    List.filter_eq_self.mpr h1
  have hguard : (match u.assignee with
      | some a => a != "" && (findUser s a).isNone
      | none => false) = false := by
    cases ha : u.assignee with
    | none => rfl
    | some a =>
        by_cases hae : a = ""
        · simp [hae]
        · have := h2 a ha hae
          simp [this, hae]
  unfold bulkUpdateTasks
  rw [hfeq]
  simp only [bne_self_eq_false, Bool.false_eq_true, if_false, hguard, h3]
  exact ⟨rfl, trivial⟩

/-- Witness for the amended C5 at a concrete input: two requested ids, one
matching a stored task and one matching none, produce exactly two bulk log
entries. -/
theorem bulk_log_per_requested_id_witness :
    errStatus (bulkUpdateTasks wState wAdmin
      [wTask.id, "dddddddddddddddddddddddd"] { priority := some .high } 5).2 =
      none ∧
    (bulkUpdateTasks wState wAdmin
      [wTask.id, "dddddddddddddddddddddddd"] { priority := some .high } 5).1.log =
      wState.log ++
        [{ taskId := wTask.id, userId := wAdmin.id,
           action := ActivityAction.update,
           changes := LogChanges.bulk { priority := some .high } },
         { taskId := "dddddddddddddddddddddddd", userId := wAdmin.id,
           action := ActivityAction.update,
           changes := LogChanges.bulk { priority := some .high } }] :=
  bulk_log_per_requested_id wState wAdmin
    [wTask.id, "dddddddddddddddddddddddd"] { priority := some .high } 5
    (by decide) (by intro a h; simp at h) (by decide)

/-! ## Claim C6 -/

/-- C6: a bulk update naming a malformed id, or naming a (truthy) assignee
that does not exist, fails before any write: the whole store — tasks and
activity log — is returned unchanged alongside the error. -/
theorem bulk_fails_before_write (s : State) (caller : User)
    (taskIds : List String) (u : UpdatePayload) (now : Int)
    (h : (∃ i ∈ taskIds, isValidObjectId i = false) ∨
      (∃ a, u.assignee = some a ∧ a ≠ "" ∧ findUser s a = none)) :
    errStatus (bulkUpdateTasks s caller taskIds u now).2 ≠ none ∧
    (bulkUpdateTasks s caller taskIds u now).1 = s := by
  unfold bulkUpdateTasks
  by_cases hv :
      ((taskIds.filter isValidObjectId).length != taskIds.length) = true
  · simp only [hv, if_true]
    exact ⟨by simp [errStatus], trivial⟩
  · simp only [Bool.not_eq_true] at hv
    have hall : ∀ i ∈ taskIds, isValidObjectId i = true := by
      rw [bne_eq_false_iff_eq] at hv
      exact List.filter_length_eq_length.mp hv
    have hassign : ∃ a, u.assignee = some a ∧ a ≠ "" ∧ findUser s a = none := by
      rcases h with ⟨i, hi, hbad⟩ | h2
      · rw [hall i hi] at hbad
        cases hbad
      · exact h2
    rcases hassign with ⟨a, ha, hae, hfu⟩
    have hguard : (match u.assignee with
        | some x => x != "" && (findUser s x).isNone
        | none => false) = true := by
      rw [ha]
      simp [hae, hfu]
    simp only [hv, bne_eq_false_iff_eq]
    rw [bne_eq_false_iff_eq] at hv
    simp only [hv, bne_self_eq_false, Bool.false_eq_true, if_false, hguard,
      if_true]
    exact ⟨by simp [errStatus], trivial⟩

/-- Witness for C6: one malformed id among four aborts the call with the
store untouched. -/
theorem bulk_fails_before_write_witness :
    errStatus (bulkUpdateTasks wState wAdmin
      [wTask.id, "zz", "dddddddddddddddddddddddd", "eeeeeeeeeeeeeeeeeeeeeeee"]
      { status := some .done } 5).2 ≠ none ∧
    (bulkUpdateTasks wState wAdmin
      [wTask.id, "zz", "dddddddddddddddddddddddd", "eeeeeeeeeeeeeeeeeeeeeeee"]
      { status := some .done } 5).1 = wState :=
  bulk_fails_before_write wState wAdmin
    [wTask.id, "zz", "dddddddddddddddddddddddd", "eeeeeeeeeeeeeeeeeeeeeeee"]
    { status := some .done } 5
    (Or.inl ⟨"zz", by decide, by decide⟩)

/-! ## Claim C7 -/

/-- C7: the per-document `isOverdue` virtual and the Mongo filter used by
GET /tasks/overdue agree on every task (for the same reading of "now"),
and the endpoint returns exactly the overdue tasks the caller may see:
all overdue tasks for an admin, the caller's own overdue tasks for a
member. -/
theorem isOverdue_refinement (s : State) (caller : User) (now : Int) :
    (∀ t : Task, matchesOverdueFilter now t = isOverdue now t) ∧
    (caller.role = UserRole.admin →
      ∀ t : Task, t ∈ getOverdueTasks s caller now ↔
        t ∈ s.tasks ∧ isOverdue now t = true) ∧
    (caller.role = UserRole.member →
      ∀ t : Task, t ∈ getOverdueTasks s caller now ↔
        t ∈ s.tasks ∧ isOverdue now t = true ∧ t.assignee = caller.id) := by
  have hagree : ∀ t : Task, matchesOverdueFilter now t = isOverdue now t := by
    intro t
    unfold matchesOverdueFilter isOverdue
    cases t.dueDate <;> simp
  refine ⟨hagree, ?_, ?_⟩
  · intro ha t
    unfold getOverdueTasks
    have hrole : (caller.role == UserRole.member) = false := by simp [ha]
    rw [hrole]
    simp only [Bool.false_eq_true, if_false]
    rw [mem_sortByLe, List.mem_filter, hagree t]
  · intro hm t
    unfold getOverdueTasks
    have hrole : (caller.role == UserRole.member) = true := by simp [hm]
    rw [hrole]
    simp only [if_true]
    rw [mem_sortByLe, List.mem_filter]
    constructor
    · rintro ⟨hmem, hb⟩
      simp only [Bool.and_eq_true, beq_iff_eq] at hb
      exact ⟨hmem, by rw [← hagree t]; exact hb.1, hb.2⟩
    · rintro ⟨hmem, hov, hass⟩
      refine ⟨hmem, ?_⟩
      simp only [Bool.and_eq_true, beq_iff_eq]
      exact ⟨by rw [hagree t]; exact hov, hass⟩

/-- Witness for C7: in the concrete store, the task with a past due date
is returned as overdue to both the admin and its member assignee. -/
theorem isOverdue_refinement_witness :
    matchesOverdueFilter 5 wTask = isOverdue 5 wTask ∧
    wTaskDue ∈ getOverdueTasks wStateDue wAdmin 5 ∧
    wTaskDue ∈ getOverdueTasks wStateDue wMember 5 := by
  have h := isOverdue_refinement wStateDue wAdmin 5
  have h2 := isOverdue_refinement wStateDue wMember 5
  exact ⟨h.1 wTask,
    (h.2.1 rfl wTaskDue).mpr ⟨by decide, by decide⟩,
    (h2.2.2 rfl wTaskDue).mpr ⟨by decide, by decide, by decide⟩⟩

/-! ## Claim C8 -/

/-- C8: getTasks clamps the page number to at least 1 (default 1) and the
page size into [1,100] (default 10), and the returned metadata satisfies
totalPages = ceil(totalItems / itemsPerPage), hasNextPage =
(currentPage < totalPages), hasPrevPage = (currentPage > 1). -/
theorem getTasks_pagination (s : State) (caller : User) (q : TaskQuery) :
    1 ≤ (getTasks s caller q).2.currentPage ∧
    1 ≤ (getTasks s caller q).2.itemsPerPage ∧
    (getTasks s caller q).2.itemsPerPage ≤ 100 ∧
    (q.page = none → (getTasks s caller q).2.currentPage = 1) ∧
    (q.limit = none → (getTasks s caller q).2.itemsPerPage = 10) ∧
    (getTasks s caller q).2.totalPages =
      ceilDiv (getTasks s caller q).2.totalItems
        (getTasks s caller q).2.itemsPerPage ∧
    (getTasks s caller q).2.hasNextPage =
      decide ((getTasks s caller q).2.currentPage <
        (getTasks s caller q).2.totalPages) ∧
    (getTasks s caller q).2.hasPrevPage =
      decide (1 < (getTasks s caller q).2.currentPage) := by
  refine ⟨?_, ?_, ?_, ?_, ?_, rfl, rfl, rfl⟩
  · show 1 ≤ (max 1 (q.page.getD 1)).toNat
    omega
  · show 1 ≤ (min 100 (max 1 (q.limit.getD 10))).toNat
    omega
  · show (min 100 (max 1 (q.limit.getD 10))).toNat ≤ 100
    omega
  · intro h
    show (max 1 (q.page.getD 1)).toNat = 1
    rw [h]
    decide
  · intro h
    show (min 100 (max 1 (q.limit.getD 10))).toNat = 10
    rw [h]
    decide

/-- Witness for C8 at concrete out-of-range inputs: page −7 clamps to 1,
limit 1000 clamps to 100, and the defaults are 1 and 10. -/
theorem getTasks_pagination_witness :
    1 ≤ (getTasks wState wAdmin
      { page := some (-7), limit := some 1000 }).2.currentPage ∧
    (getTasks wState wAdmin
      { page := some (-7), limit := some 1000 }).2.itemsPerPage ≤ 100 ∧
    (getTasks wState wAdmin {}).2.currentPage = 1 ∧
    (getTasks wState wAdmin {}).2.itemsPerPage = 10 ∧
    (getTasks wState wAdmin {}).2.totalPages =
      ceilDiv (getTasks wState wAdmin {}).2.totalItems
        (getTasks wState wAdmin {}).2.itemsPerPage := by
  have h1 := getTasks_pagination wState wAdmin
    { page := some (-7), limit := some 1000 }
  have h2 := getTasks_pagination wState wAdmin {}
  exact ⟨h1.1, h1.2.2.1, h2.2.2.2.1 rfl, h2.2.2.2.2.1 rfl, h2.2.2.2.2.2.1⟩

/-! ## Claim C9 -/

/-- C9: deleting a user who still has at least one assigned task fails with
the 400 domain error and leaves the store unchanged; deleting an existing
user with no assigned tasks, who is not the caller, succeeds and removes
exactly that user record. -/
theorem deleteUser_task_guard (s : State) (caller : User) (id : String) :
    (isValidObjectId id = true → caller.id ≠ id →
      (findUser s id).isSome = true →
      (∃ t ∈ s.tasks, t.assignee = id) →
      (deleteUser s caller id).2 = .error
        { message := "Cannot delete user. They have assigned task(s). Please reassign these tasks first.",
          status := 400 } ∧
      (deleteUser s caller id).1 = s) ∧
    (isValidObjectId id = true → caller.id ≠ id →
      (findUser s id).isSome = true →
      (∀ t ∈ s.tasks, t.assignee ≠ id) →
      (deleteUser s caller id).2 = .ok () ∧
      (deleteUser s caller id).1.users = s.users.filter (fun u => u.id != id) ∧
      findUser (deleteUser s caller id).1 id = none) := by
  constructor
  · intro hval hself hfound ⟨t, htmem, hass⟩
    have hcount : ((s.tasks.filter (fun t => t.assignee == id)).length > 0) := by
      apply List.length_pos.mpr
      intro hnil
      have : t ∈ s.tasks.filter (fun t => t.assignee == id) :=
        List.mem_filter.mpr ⟨htmem, by simp [hass]⟩
      rw [hnil] at this
      cases this
    unfold deleteUser
    rw [hval]
    cases hfu : findUser s id with
    | none => rw [hfu] at hfound; simp at hfound
    | some u0 =>
        simp only [Bool.not_true, Bool.false_eq_true, if_false]
        have hid : (caller.id == id) = false := by simp [hself]
        simp only [hid, Bool.false_eq_true, if_false, hfu]
        have hdec := decide_eq_true hcount
        simp only [hdec, if_true]
        exact ⟨by trivial, by trivial⟩
  · intro hval hself hfound hnone
    have hfil : s.tasks.filter (fun t => t.assignee == id) = [] := by
      apply List.filter_eq_nil_iff.mpr
      intro t ht
      simp [hnone t ht]
    unfold deleteUser
    rw [hval]
    cases hfu : findUser s id with
    | none => rw [hfu] at hfound; simp at hfound
    | some u0 =>
        simp only [Bool.not_true, Bool.false_eq_true, if_false]
        have hid : (caller.id == id) = false := by simp [hself]
        simp only [hid, Bool.false_eq_true, if_false, hfu]
        rw [hfil]
        have hdec : decide ((0 : Nat) > 0) = false := by decide
        simp only [List.length_nil, hdec, Bool.false_eq_true, if_false]
        refine ⟨by trivial, by trivial, ?_⟩
        apply List.find?_eq_none.mpr
        intro u hu
        have := (List.mem_filter.mp hu).2
        simp only [bne_iff_ne, ne_eq] at this
        simp [this]

/-- Witness for C9: deleting `wMember` (one assigned task) fails with the
domain error and changes nothing; deleting `wIdle` (no tasks) succeeds and
removes exactly that record. -/
theorem deleteUser_task_guard_witness :
    (deleteUser wState wAdmin wMember.id).2 = .error
      { message := "Cannot delete user. They have assigned task(s). Please reassign these tasks first.",
        status := 400 } ∧
    (deleteUser wState wAdmin wMember.id).1 = wState ∧
    (deleteUser wState wAdmin wIdle.id).2 = .ok () ∧
    findUser (deleteUser wState wAdmin wIdle.id).1 wIdle.id = none := by
  have h := deleteUser_task_guard wState wAdmin wMember.id
  have h2 := deleteUser_task_guard wState wAdmin wIdle.id
  have hb := h.1 (by decide) (by decide) (by decide) ⟨wTask, by decide, by decide⟩
  have hg := h2.2 (by decide) (by decide) (by decide)
    (by intro t ht; fin_cases ht <;> decide)
  exact ⟨hb.1, hb.2, hg.1, hg.2.2⟩

/-! ## Claim C10 -/

/-- Unfolding `JVal.hasKey` on an object. -/
theorem hasKey_obj (k : String) (fs : List (String × JVal)) :
    JVal.hasKey k (.obj fs) = hasKeyFields k fs := by
  simp [JVal.hasKey]

/-- Unfolding `JVal.hasKey` on an array. -/
theorem hasKey_arr (k : String) (es : List JVal) :
    JVal.hasKey k (.arr es) = hasKeyElems k es := by
  simp [JVal.hasKey]

/-- Unfolding `JVal.hasKey` on a string leaf. -/
theorem hasKey_str (k s0 : String) : JVal.hasKey k (.str s0) = false := by
  simp [JVal.hasKey]

/-- The toJSON transform never leaves a password key in a serialized user. -/
theorem hasKey_userToJSON (u : User) :
    JVal.hasKey "password" (userToJSON u) = false := by
  simp [userToJSON, userObjRaw, deleteKey, JVal.hasKey, hasKeyFields]

/-- A populated user reference carries no password key. -/
theorem hasKey_populatedUserObj (s : State) (id : String) :
    JVal.hasKey "password" (populatedUserObj s id) = false := by
  unfold populatedUserObj
  cases findUser s id with
  | none => rfl
  | some u => simp [JVal.hasKey, hasKeyFields]

/-- A string array (e.g. tags) carries no keys at all. -/
theorem hasKeyElems_map_str (k : String) (l : List String) :
    hasKeyElems k (l.map .str) = false := by
  induction l with
  | nil => rfl
  | cons a as ih => simp [hasKeyElems, JVal.hasKey, ih]

/-- A serialized task (with populated user references) carries no password
key. -/
theorem hasKey_taskToJSON (s : State) (t : Task) :
    JVal.hasKey "password" (taskToJSON s t) = false := by
  simp only [taskToJSON, JVal.hasKey, hasKeyFields, hasKey_populatedUserObj,
    hasKeyElems_map_str]
  cases t.description <;> cases t.dueDate <;>
    simp [JVal.hasKey, hasKeyFields, hasKeyElems_map_str,
      hasKey_populatedUserObj]

/-- A serialized user list carries no password key. -/
theorem hasKeyElems_map_userToJSON (us : List User) :
    hasKeyElems "password" (us.map userToJSON) = false := by
  induction us with
  | nil => rfl
  | cons u rest ih => simp [hasKeyElems, hasKey_userToJSON, ih]

/-- A serialized task list carries no password key. -/
theorem hasKeyElems_map_taskToJSON (s : State) (ts : List Task) :
    hasKeyElems "password" (ts.map (taskToJSON s)) = false := by
  induction ts with
  | nil => rfl
  | cons t rest ih => simp [hasKeyElems, hasKey_taskToJSON, ih]

/-- C10: no API response that embeds user objects ever contains the
password key — register/login (`{user, token}`), profile/verify, the
admin user list, user-by-id, and the task list with populated
assignee/createdBy are all serialized through projections and the toJSON
transform that remove it. -/
theorem password_never_serialized (s : State) (u : User) (token : String)
    (ts : List Task) (us : List User) :
    JVal.hasKey "password" (authResponseData u token) = false ∧
    JVal.hasKey "password" (profileResponseData u) = false ∧
    JVal.hasKey "password" (usersResponseData us) = false ∧
    JVal.hasKey "password" (userByIdResponseData u) = false ∧
    JVal.hasKey "password" (tasksResponseData s ts) = false := by
  refine ⟨?_, ?_, ?_, ?_, ?_⟩
  · simp [authResponseData, hasKey_obj, hasKeyFields, hasKey_userToJSON,
      hasKey_str]
  · simp [profileResponseData, hasKey_obj, hasKeyFields, hasKey_userToJSON]
  · simp [usersResponseData, hasKey_obj, hasKey_arr, hasKeyFields,
      hasKeyElems_map_userToJSON]
  · simp [userByIdResponseData, hasKey_obj, hasKeyFields, hasKey_userToJSON]
  · simp [tasksResponseData, hasKey_obj, hasKey_arr, hasKeyFields,
      hasKeyElems_map_taskToJSON]

end TaskApp
